import Mathlib

/-
Verification development for the Payment-Reminder application.

The definitions below are a shallow embedding of the Python sources:
  * excel_manager/excel_manager.py  (row normalization in get_payment_entries)
  * reminder_engine/reminder_engine.py  (get_due_payments, get_upcoming_payments,
    get_payment_summary)
  * email_notifier/email_notifier.py  (send_email, send_payment_reminder)
  * ui_handler/ui_handler.py  (mark_as_paid, reschedule_payment write paths,
    modelled as event traces)

Calendar dates are modelled as integers (day ordinals); `today` is always an
explicit parameter (the Python engine reads datetime.now().date() once at
construction and uses it as a fixed value for every scan).  Monetary amounts
are modelled as rationals.  The outcome of the external date parser
(pandas.to_datetime) on a string cell is abstracted as an `Option Int` carried
by the raw cell value: `some d` for a string the parser accepts, `none` for one
it rejects; both the excel layer and the engine invoke the same parser, so the
same outcome is observed at both layers.
-/

namespace PaymentApp

/-- A due-date cell after the excel layer's normalization pass: a proper
calendar date, a string the date parser rejects (kept verbatim by the excel
layer, skipped by the engine when it fails to parse again), or a missing /
empty (falsy) value. -/
inductive DueField where
  | missing
  | bad
  | ok (d : Int)
deriving DecidableEq, Repr

/-- A raw due-date cell as read from the spreadsheet, before normalization:
missing (NaN / empty), a string cell together with the abstracted outcome of
the date parser on it, or an already date-like value. -/
inductive RawDue where
  | missing
  | str (parsed : Option Int)
  | dateLike (d : Int)
deriving DecidableEq, Repr

/-- A raw spreadsheet row (the required columns Name / Amount / Due Date plus
the optional Email and Status columns; a missing or NaN optional cell is
`none`).  The Remarks / Payment Date columns and the row-position bookkeeping
(file_path, row_index) play no role in the claims under verification and are
omitted. -/
structure RawRow where
  name : String
  amount : ℚ
  dueDate : RawDue
  email : Option String
  status : Option String
deriving DecidableEq, Repr

/-- A normalized payment record as returned by
ExcelManager.get_payment_entries. -/
structure Entry where
  name : String
  amount : ℚ
  dueDate : DueField
  status : String
  email : Option String
  city : Option String
deriving DecidableEq, Repr

/-- Due-date normalization inside ExcelManager.get_payment_entries: a string
cell is parsed (left verbatim on failure, hence `bad`), a date-like cell has
its calendar date extracted, a missing cell stays missing. -/
def normalizeDue : RawDue → DueField
  | RawDue.missing => DueField.missing
  | RawDue.str none => DueField.bad
  | RawDue.str (some d) => DueField.ok d
  | RawDue.dateLike d => DueField.ok d

/-- Status normalization inside ExcelManager.get_payment_entries:
`if not entry['Status'] or pd.isna(entry['Status']): entry['Status'] = 'Unpaid'`.
A missing / NaN cell (`none`) and the empty string are coerced to "Unpaid";
every other string is kept verbatim. -/
def normalizeStatus : Option String → String
  | none => "Unpaid"
  | some s => if s = "" then "Unpaid" else s

/-- Python str.lower as used on the Status values (all ASCII): lower-case
every character of the string.  This is String.toLower stated directly over
the character list, so that concrete instances reduce inside the kernel
(String.map recurses on the byte position and does not). -/
def strLower (s : String) : String := ⟨s.data.map Char.toLower⟩

/-- ExcelManager.get_payment_entries on the rows of one readable file: each
row is normalized and tagged with the city name (when one was supplied). -/
def get_payment_entries (rows : List RawRow) (city : Option String) : List Entry :=
  rows.map fun r =>
    { name := r.name
      amount := r.amount
      dueDate := normalizeDue r.dueDate
      status := normalizeStatus r.status
      email := r.email
      city := city }

/-- One (file_path, city_name) source as seen by the engine: the file may not
exist (os.path.exists is false), reading it may raise (the file cannot be
opened, or a required column among Name / Amount / Due Date is missing, both
of which make get_payment_entries raise), or it yields its raw rows. -/
inductive Source where
  | missing
  | readError
  | ok (rows : List RawRow) (city : Option String)
deriving DecidableEq, Repr

/-- Whether a source is skipped by the engine (nonexistent file or a read
that raises). -/
def Source.fails : Source → Bool
  | Source.missing => true
  | Source.readError => true
  | Source.ok _ _ => false

/-- Reading one source: `none` when the engine skips it, otherwise the
normalized entries of get_payment_entries. -/
def read_entries : Source → Option (List Entry)
  | Source.missing => none
  | Source.readError => none
  | Source.ok rows city => some (get_payment_entries rows city)

/-- Priority tier from days overdue, exactly the branch in
ReminderEngine.get_due_payments: more than 30 days is High, more than 7 is
Medium, anything else is Low. -/
def priorityOf (d : Int) : String :=
  if d > 30 then "High" else if d > 7 then "Medium" else "Low"

/-- An element of the due-list: the entry together with the days_overdue and
priority keys the engine adds to it. -/
structure DueItem where
  entry : Entry
  days_overdue : Int
  priority : String
deriving DecidableEq, Repr

/-- The per-entry body of the loop in ReminderEngine.get_due_payments: skip a
paid entry (case-insensitively), skip a missing or unparseable due date, and
include the entry when its due date is on or before today, decorated with
days_overdue and priority. -/
def dueOfEntry (today : Int) (e : Entry) : Option DueItem :=
  if strLower e.status = "paid" then none
  else
    match e.dueDate with
    | DueField.missing => none
    | DueField.bad => none
    | DueField.ok d =>
        if d ≤ today then some ⟨e, today - d, priorityOf (today - d)⟩ else none

/-- The due-list before the final sort: every source in order, skipped
entirely when it fails, each surviving entry filtered and decorated by
`dueOfEntry`. -/
def duePool (today : Int) (sources : List Source) : List DueItem :=
  (sources.map fun s =>
    match read_entries s with
    | none => []
    | some es => es.filterMap (dueOfEntry today)).flatten

/-- Stable insertion of a due item into a list sorted by days_overdue
descending: the new element goes before the first element whose key does not
exceed its own.  Used to model Python's stable `list.sort(key=..., reverse=True)`:
a stable sort by a given key is unique, so any stable descending sort denotes
the same function. -/
def insertDue (x : DueItem) : List DueItem → List DueItem
  | [] => [x]
  | y :: ys => if y.days_overdue ≤ x.days_overdue then x :: y :: ys else y :: insertDue x ys

/-- Stable sort of the due-list by days_overdue descending. -/
def sortDue : List DueItem → List DueItem
  | [] => []
  | x :: xs => insertDue x (sortDue xs)

/-- ReminderEngine.get_due_payments over a list of sources, with `today`
explicit. -/
def get_due_payments (today : Int) (sources : List Source) : List DueItem :=
  sortDue (duePool today sources)

/-- An element of the upcoming-list: the entry together with the
days_until_due key the engine adds to it. -/
structure UpcomingItem where
  entry : Entry
  days_until_due : Int
deriving DecidableEq, Repr

/-- The per-entry body of the loop in ReminderEngine.get_upcoming_payments:
skip a paid entry (case-insensitively), skip a missing or unparseable due
date, and include the entry when its due date lies strictly after today and
no later than the horizon. -/
def upcomingOfEntry (today futureDate : Int) (e : Entry) : Option UpcomingItem :=
  if strLower e.status = "paid" then none
  else
    match e.dueDate with
    | DueField.missing => none
    | DueField.bad => none
    | DueField.ok d =>
        if today < d ∧ d ≤ futureDate then some ⟨e, d - today⟩ else none

/-- The upcoming-list before the final sort. -/
def upcomingPool (today daysAhead : Int) (sources : List Source) : List UpcomingItem :=
  (sources.map fun s =>
    match read_entries s with
    | none => []
    | some es => es.filterMap (upcomingOfEntry today (today + daysAhead))).flatten

/-- Sort key of the upcoming-list: the due date (every included item has a
proper one; the default is never reached). -/
def upKey (i : UpcomingItem) : Int :=
  match i.entry.dueDate with
  | DueField.ok d => d
  | _ => 0

/-- Stable insertion for the ascending due-date sort of the upcoming-list. -/
def insertUp (x : UpcomingItem) : List UpcomingItem → List UpcomingItem
  | [] => [x]
  | y :: ys => if upKey x ≤ upKey y then x :: y :: ys else y :: insertUp x ys

/-- Stable sort of the upcoming-list by due date ascending. -/
def sortUp : List UpcomingItem → List UpcomingItem
  | [] => []
  | x :: xs => insertUp x (sortUp xs)

/-- ReminderEngine.get_upcoming_payments over a list of sources, with `today`
and the horizon explicit. -/
def get_upcoming_payments (today daysAhead : Int) (sources : List Source) : List UpcomingItem :=
  sortUp (upcomingPool today daysAhead sources)

/-- The summary dictionary built by ReminderEngine.get_payment_summary. -/
@[ext] structure Summary where
  total_payments : Nat
  paid_payments : Nat
  partial_payments : Nat
  unpaid_payments : Nat
  overdue_payments : Nat
  due_today : Nat
  upcoming_payments : Nat
  total_amount_due : ℚ
deriving DecidableEq, Repr

/-- The all-zero summary the engine starts from. -/
def emptySummary : Summary :=
  { total_payments := 0
    paid_payments := 0
    partial_payments := 0
    unpaid_payments := 0
    overdue_payments := 0
    due_today := 0
    upcoming_payments := 0
    total_amount_due := 0 }

/-- Component-wise sum of two summaries. -/
def addSummary (a b : Summary) : Summary :=
  { total_payments := a.total_payments + b.total_payments
    paid_payments := a.paid_payments + b.paid_payments
    partial_payments := a.partial_payments + b.partial_payments
    unpaid_payments := a.unpaid_payments + b.unpaid_payments
    overdue_payments := a.overdue_payments + b.overdue_payments
    due_today := a.due_today + b.due_today
    upcoming_payments := a.upcoming_payments + b.upcoming_payments
    total_amount_due := a.total_amount_due + b.total_amount_due }

/-- The per-entry body of the loop in ReminderEngine.get_payment_summary:
count the entry, bucket it by (lower-cased) status adding its amount for every
non-paid status, then — when the due date is present and parseable — bump
exactly one of the three date buckets for non-paid entries. -/
def summaryAddEntry (today : Int) (s : Summary) (e : Entry) : Summary :=
  let statusL := strLower e.status
  let s1 : Summary := { s with total_payments := s.total_payments + 1 }
  let s2 : Summary :=
    if statusL = "paid" then
      { s1 with paid_payments := s1.paid_payments + 1 }
    else if statusL = "partial" then
      { s1 with partial_payments := s1.partial_payments + 1
                total_amount_due := s1.total_amount_due + e.amount }
    else
      { s1 with unpaid_payments := s1.unpaid_payments + 1
                total_amount_due := s1.total_amount_due + e.amount }
  match e.dueDate with
  | DueField.missing => s2
  | DueField.bad => s2
  | DueField.ok d =>
      if d < today ∧ statusL ≠ "paid" then
        { s2 with overdue_payments := s2.overdue_payments + 1 }
      else if d = today ∧ statusL ≠ "paid" then
        { s2 with due_today := s2.due_today + 1 }
      else if today < d ∧ statusL ≠ "paid" then
        { s2 with upcoming_payments := s2.upcoming_payments + 1 }
      else s2

/-- Folding one source into the summary: a failing source leaves the
accumulator untouched, a readable one folds its entries in order. -/
def summaryAddSource (today : Int) (s : Summary) (src : Source) : Summary :=
  match read_entries src with
  | none => s
  | some es => es.foldl (summaryAddEntry today) s

/-- ReminderEngine.get_payment_summary over a list of sources, with `today`
explicit. -/
def get_payment_summary (today : Int) (sources : List Source) : Summary :=
  sources.foldl (summaryAddSource today) emptySummary

/-- All entries the engine actually reads from a list of sources, in order. -/
def collectEntries (sources : List Source) : List Entry :=
  (sources.map fun s => (read_entries s).getD []).flatten

/-- The EmailNotifier's configuration state (SMTP server, sender address,
app password, company name; port and environment lookups are immaterial to
the claims). -/
structure EmailNotifier where
  smtpServer : String
  senderEmail : String
  appPassword : String
  companyName : String
deriving DecidableEq, Repr

/-- `self.is_configured = bool(self.sender_email and self.app_password)`. -/
def EmailNotifier.isConfigured (n : EmailNotifier) : Bool :=
  !(n.senderEmail == "") && !(n.appPassword == "")

/-- EmailNotifier.send_email.  The outcome of the SMTP exchange itself (the
try-block: connect, STARTTLS, login, sendmail) is abstracted as the boolean
`smtpOk`; the function returns False before ever reaching it when the
notifier is unconfigured or the recipient is absent, empty, or lacks an
'@'. -/
def send_email (n : EmailNotifier) (smtpOk : Bool) (toEmail : Option String)
    (subject bodyText : String) (bodyHtml : Option String) : Bool :=
  if !n.isConfigured then false
  else
    match toEmail with
    | none => false
    | some t => if t == "" || !(t.contains '@') then false else smtpOk

/-- EmailNotifier.send_payment_reminder: builds the reminder subject and
bodies (string formatting of the amount and date is abstracted by toString)
and delegates to send_email with `to_email=None`. -/
def send_payment_reminder (n : EmailNotifier) (smtpOk : Bool)
    (customerName : String) (amount : ℚ) (dueDate : Int) (city : Option String) : Bool :=
  let dueDateStr := toString dueDate
  let amountStr := "$" ++ toString amount
  let subject := "Payment Reminder - " ++ amountStr ++ " due on " ++ dueDateStr
  let bodyText := "Dear " ++ customerName ++
    ", This is a friendly reminder that a payment of " ++ amountStr ++
    " is due on " ++ dueDateStr ++ "."
  let bodyHtml := "<html><body><p>Dear " ++ customerName ++
    ",</p><p>This is a friendly reminder that a payment of <strong>" ++ amountStr ++
    "</strong> is due on <strong>" ++ dueDateStr ++ "</strong>.</p></body></html>"
  send_email n smtpOk none subject bodyText (some bodyHtml)

/-- Observable events of the UI write path: the call into
ExcelManager.update_payment together with the boolean it returned, and the
call into EmailNotifier.send_email. -/
inductive WEvent where
  | updateLedger (ok : Bool)
  | sendEmail
deriving DecidableEq, Repr

/-- Event trace of UIHandler.mark_as_paid: when the entered amount fails to
parse as a float the handler returns before touching the ledger; otherwise it
calls update_payment (whose boolean result `updateResult` it never inspects)
and then, whenever a notifier is present and the entry has an email address,
calls send_email. -/
def mark_as_paid (amountValid notifierPresent emailPresent updateResult : Bool) : List WEvent :=
  if !amountValid then []
  else
    [WEvent.updateLedger updateResult] ++
      (if notifierPresent && emailPresent then [WEvent.sendEmail] else [])

/-- Event trace of UIHandler.reschedule_payment: update_payment is called
(its boolean result `updateResult` is never inspected), then send_email
whenever a notifier is present and the entry has an email address. -/
def reschedule_payment (notifierPresent emailPresent updateResult : Bool) : List WEvent :=
  [WEvent.updateLedger updateResult] ++
    (if notifierPresent && emailPresent then [WEvent.sendEmail] else [])

/-- Concrete test source: one Unpaid row 31 days overdue relative to day 0. -/
def srcAlice : Source :=
  Source.ok [⟨"Alice", 100, RawDue.dateLike (-31), none, some "Unpaid"⟩] (some "Delhi")

/-- The normalized entry of `srcAlice`. -/
def entryAlice : Entry := ⟨"Alice", 100, DueField.ok (-31), "Unpaid", none, some "Delhi"⟩

/-- The due-list item the engine produces for `entryAlice` at today = 0. -/
def itemAlice : DueItem := ⟨entryAlice, 31, "High"⟩

/-- Concrete test source: one Unpaid row due exactly on day 0. -/
def srcBob : Source :=
  Source.ok [⟨"Bob", 50, RawDue.dateLike 0, none, some "Unpaid"⟩] (some "Pune")

/-- The normalized entry of `srcBob`. -/
def entryBob : Entry := ⟨"Bob", 50, DueField.ok 0, "Unpaid", none, some "Pune"⟩

/-- A concrete settled (Paid) entry with a past due date. -/
def entryPaidDana : Entry := ⟨"Dana", 30, DueField.ok (-5), "Paid", none, none⟩

/-- A concrete Unpaid entry with a missing due date. -/
def entryNoDate : Entry := ⟨"Frank", 20, DueField.missing, "Unpaid", none, none⟩

/-- Membership in a stable due-insertion is membership in the inserted element
or the original list. -/
theorem mem_insertDue (x a : DueItem) (l : List DueItem) :
    a ∈ insertDue x l ↔ a = x ∨ a ∈ l := by
  induction l with
  | nil => simp [insertDue]
  | cons y ys ih =>
      by_cases h : y.days_overdue ≤ x.days_overdue
      · simp [insertDue, h]
      · simp [insertDue, h, ih]
        tauto

/-- Sorting the due-list does not change its members. -/
theorem mem_sortDue (a : DueItem) (l : List DueItem) :
    a ∈ sortDue l ↔ a ∈ l := by
  induction l with
  | nil => simp [sortDue]
  | cons x xs ih => simp [sortDue, mem_insertDue, ih]

/-- Inserting into a list that is pairwise descending in days_overdue keeps it
pairwise descending. -/
theorem pairwise_insertDue (x : DueItem) (l : List DueItem)
    (h : l.Pairwise fun a b => b.days_overdue ≤ a.days_overdue) :
    (insertDue x l).Pairwise fun a b => b.days_overdue ≤ a.days_overdue := by
  induction l with
  | nil => simp [insertDue]
  | cons y ys ih =>
      rw [List.pairwise_cons] at h
      by_cases hc : y.days_overdue ≤ x.days_overdue
      · rw [insertDue]
        simp only [if_pos hc]
        refine List.pairwise_cons.mpr ⟨?_, List.pairwise_cons.mpr ⟨h.1, h.2⟩⟩
        intro z hz
        rcases List.mem_cons.mp hz with hz | hz
        · exact hz ▸ hc
        · exact le_trans (h.1 z hz) hc
      · rw [insertDue]
        simp only [if_neg hc]
        refine List.pairwise_cons.mpr ⟨?_, ih h.2⟩
        intro z hz
        rcases (mem_insertDue x z ys).mp hz with hz | hz
        · exact hz ▸ le_of_lt (lt_of_not_le hc)
        · exact h.1 z hz

/-- The stable sort of the due-list is pairwise descending in days_overdue. -/
theorem pairwise_sortDue (l : List DueItem) :
    (sortDue l).Pairwise fun a b => b.days_overdue ≤ a.days_overdue := by
  induction l with
  | nil => simp [sortDue]
  | cons x xs ih => exact pairwise_insertDue x (sortDue xs) ih

/-- Stability of the insertion step: restricted to any one days_overdue value,
inserting behaves like consing when the new element has that value and like
the identity otherwise. -/
theorem filter_insertDue (k : Int) (x : DueItem) (l : List DueItem) :
    (insertDue x l).filter (fun i => i.days_overdue == k)
      = if x.days_overdue == k then
          x :: l.filter (fun i => i.days_overdue == k)
        else l.filter (fun i => i.days_overdue == k) := by
  induction l with
  | nil => simp [insertDue, List.filter_cons, beq_iff_eq]
  | cons y ys ih =>
      by_cases hc : y.days_overdue ≤ x.days_overdue
      · rw [insertDue]
        simp only [if_pos hc]
        by_cases hx : x.days_overdue = k
        · simp [List.filter_cons, beq_iff_eq, hx]
        · simp [List.filter_cons, beq_iff_eq, hx]
      · rw [insertDue]
        simp only [if_neg hc]
        by_cases hx : x.days_overdue = k
        · have hy : ¬ y.days_overdue = k := by
            intro hyk
            exact hc (le_of_eq (hx ▸ hyk))
          simp [List.filter_cons, beq_iff_eq, hx, hy, ih]
        · by_cases hy : y.days_overdue = k
          · simp [List.filter_cons, beq_iff_eq, hx, hy, ih]
          · simp [List.filter_cons, beq_iff_eq, hx, hy, ih]

/-- Stability of the due-list sort: restricted to any one days_overdue value,
the sorted list coincides with the input list. -/
theorem filter_sortDue (k : Int) (l : List DueItem) :
    (sortDue l).filter (fun i => i.days_overdue == k)
      = l.filter (fun i => i.days_overdue == k) := by
  induction l with
  | nil => simp [sortDue]
  | cons x xs ih =>
      rw [sortDue, filter_insertDue]
      by_cases hx : x.days_overdue = k
      · simp [List.filter_cons, beq_iff_eq, hx, ih]
      · simp [List.filter_cons, beq_iff_eq, hx, ih]

/-- Membership in a stable upcoming-insertion is membership in the inserted
element or the original list. -/
theorem mem_insertUp (x a : UpcomingItem) (l : List UpcomingItem) :
    a ∈ insertUp x l ↔ a = x ∨ a ∈ l := by
  induction l with
  | nil => simp [insertUp]
  | cons y ys ih =>
      by_cases h : upKey x ≤ upKey y
      · simp [insertUp, h]
      · simp [insertUp, h, ih]
        tauto

/-- Sorting the upcoming-list does not change its members. -/
theorem mem_sortUp (a : UpcomingItem) (l : List UpcomingItem) :
    a ∈ sortUp l ↔ a ∈ l := by
  induction l with
  | nil => simp [sortUp]
  | cons x xs ih => simp [sortUp, mem_insertUp, ih]

/-- What inclusion in the unsorted due-pool tells about an item: its entry is
not paid (case-insensitively), its due date is a proper date on or before
today, and its days_overdue and priority are the ones the engine computes. -/
theorem mem_duePool_spec {today : Int} {sources : List Source} {i : DueItem}
    (h : i ∈ duePool today sources) :
    strLower i.entry.status ≠ "paid" ∧
      ∃ d, i.entry.dueDate = DueField.ok d ∧ d ≤ today ∧
        i.days_overdue = today - d ∧ i.priority = priorityOf (today - d) := by
  rw [duePool, List.mem_flatten] at h
  obtain ⟨l, hl, hi⟩ := h
  rw [List.mem_map] at hl
  obtain ⟨s, _, rfl⟩ := hl
  rcases hre : read_entries s with _ | es
  · rw [hre] at hi
    simp at hi
  · rw [hre] at hi
    simp only at hi
    rw [List.mem_filterMap] at hi
    obtain ⟨e, _, he⟩ := hi
    rw [dueOfEntry] at he
    by_cases hp : strLower e.status = "paid"
    · rw [if_pos hp] at he
      exact absurd he (by simp)
    · rw [if_neg hp] at he
      rcases hd : e.dueDate with _ | _ | d
      · rw [hd] at he
        exact absurd he (by simp)
      · rw [hd] at he
        exact absurd he (by simp)
      · rw [hd] at he
        dsimp only at he
        by_cases hle : d ≤ today
        · rw [if_pos hle] at he
          cases he
          exact ⟨hp, d, hd, hle, rfl, rfl⟩
        · rw [if_neg hle] at he
          exact absurd he (by simp)

/-- What inclusion in the due-list tells about an item (the sort preserves
membership). -/
theorem mem_due_spec {today : Int} {sources : List Source} {i : DueItem}
    (h : i ∈ get_due_payments today sources) :
    strLower i.entry.status ≠ "paid" ∧
      ∃ d, i.entry.dueDate = DueField.ok d ∧ d ≤ today ∧
        i.days_overdue = today - d ∧ i.priority = priorityOf (today - d) :=
  mem_duePool_spec ((mem_sortDue i _).mp h)

/-- What inclusion in the upcoming-list tells about an item: its entry is not
paid (case-insensitively), its due date is a proper date strictly after today
and within the horizon, and its days_until_due is the one the engine
computes. -/
theorem mem_upcoming_spec {today daysAhead : Int} {sources : List Source}
    {j : UpcomingItem} (h : j ∈ get_upcoming_payments today daysAhead sources) :
    strLower j.entry.status ≠ "paid" ∧
      ∃ d, j.entry.dueDate = DueField.ok d ∧ today < d ∧ d ≤ today + daysAhead ∧
        j.days_until_due = d - today := by
  rw [get_upcoming_payments, mem_sortUp, upcomingPool, List.mem_flatten] at h
  obtain ⟨l, hl, hj⟩ := h
  rw [List.mem_map] at hl
  obtain ⟨s, _, rfl⟩ := hl
  rcases hre : read_entries s with _ | es
  · rw [hre] at hj
    simp at hj
  · rw [hre] at hj
    simp only at hj
    rw [List.mem_filterMap] at hj
    obtain ⟨e, _, he⟩ := hj
    rw [upcomingOfEntry] at he
    by_cases hp : strLower e.status = "paid"
    · rw [if_pos hp] at he
      exact absurd he (by simp)
    · rw [if_neg hp] at he
      rcases hd : e.dueDate with _ | _ | d
      · rw [hd] at he
        exact absurd he (by simp)
      · rw [hd] at he
        exact absurd he (by simp)
      · rw [hd] at he
        dsimp only at he
        by_cases hw : today < d ∧ d ≤ today + daysAhead
        · rw [if_pos hw] at he
          cases he
          exact ⟨hp, d, hd, hw.1, hw.2, rfl⟩
        · rw [if_neg hw] at he
          exact absurd he (by simp)

/-- Adding the all-zero summary on the right is the identity. -/
theorem addSummary_empty_right (s : Summary) : addSummary s emptySummary = s := by
  simp [addSummary, emptySummary]

/-- Folding one entry commutes with a summary offset: the per-entry update
only ever adds to counters, by increments that do not depend on the
accumulator. -/
theorem summaryAddEntry_addSummary (today : Int) (a b : Summary) (e : Entry) :
    summaryAddEntry today (addSummary a b) e = addSummary a (summaryAddEntry today b e) := by
  rcases hd : e.dueDate with _ | _ | d <;>
    simp only [summaryAddEntry, hd] <;>
    split_ifs <;>
    simp [addSummary, Summary.ext_iff, add_assoc]

/-- Folding a list of entries commutes with a summary offset. -/
theorem foldl_entries_addSummary (today : Int) (es : List Entry) :
    ∀ a b : Summary,
      es.foldl (summaryAddEntry today) (addSummary a b)
        = addSummary a (es.foldl (summaryAddEntry today) b) := by
  induction es with
  | nil => intro a b; rfl
  | cons e es ih =>
      intro a b
      simp only [List.foldl_cons, summaryAddEntry_addSummary]
      exact ih a (summaryAddEntry today b e)

/-- Folding one source commutes with a summary offset. -/
theorem summaryAddSource_addSummary (today : Int) (a b : Summary) (src : Source) :
    summaryAddSource today (addSummary a b) src = addSummary a (summaryAddSource today b src) := by
  rcases hre : read_entries src with _ | es <;>
    simp only [summaryAddSource, hre]
  exact foldl_entries_addSummary today es a b

/-- Folding a list of sources commutes with a summary offset. -/
theorem foldl_sources_addSummary (today : Int) (srcs : List Source) :
    ∀ a b : Summary,
      srcs.foldl (summaryAddSource today) (addSummary a b)
        = addSummary a (srcs.foldl (summaryAddSource today) b) := by
  induction srcs with
  | nil => intro a b; rfl
  | cons src srcs ih =>
      intro a b
      simp only [List.foldl_cons, summaryAddSource_addSummary]
      exact ih a (summaryAddSource today b src)

/-- How one entry moves the status counters and the amount: the counter of
its own (lower-cased) status is incremented, the others are untouched, and
its amount is added exactly when it is not paid.  These fields are never
touched by the date-bucket branch. -/
theorem summaryAddEntry_status_fields (today : Int) (s : Summary) (e : Entry) :
    (summaryAddEntry today s e).total_payments = s.total_payments + 1 ∧
      (summaryAddEntry today s e).paid_payments
        = s.paid_payments + (if strLower e.status = "paid" then 1 else 0) ∧
      (summaryAddEntry today s e).partial_payments
        = s.partial_payments + (if strLower e.status = "partial" then 1 else 0) ∧
      (summaryAddEntry today s e).unpaid_payments
        = s.unpaid_payments
            + (if strLower e.status ≠ "paid" ∧ strLower e.status ≠ "partial" then 1 else 0) ∧
      (summaryAddEntry today s e).total_amount_due
        = s.total_amount_due + (if strLower e.status = "paid" then 0 else e.amount) := by
  rcases hd : e.dueDate with _ | _ | d <;>
    simp only [summaryAddEntry, hd] <;>
    split_ifs <;>
    simp_all

/-- An entry with a missing or unparseable due date leaves the three
date-bucket counters untouched. -/
theorem summaryAddEntry_nodate_buckets (today : Int) (s : Summary) (e : Entry)
    (h : e.dueDate = DueField.missing ∨ e.dueDate = DueField.bad) :
    (summaryAddEntry today s e).overdue_payments = s.overdue_payments ∧
      (summaryAddEntry today s e).due_today = s.due_today ∧
      (summaryAddEntry today s e).upcoming_payments = s.upcoming_payments := by
  rcases h with h | h <;>
    simp only [summaryAddEntry, h] <;>
    split_ifs <;>
    simp

/-- Folding a list of entries adds the amounts of exactly its non-paid
entries to the running amount due. -/
theorem foldl_entries_total_amount (today : Int) (es : List Entry) :
    ∀ s : Summary,
      (es.foldl (summaryAddEntry today) s).total_amount_due
        = s.total_amount_due
            + ((es.filter fun e => !(strLower e.status == "paid")).map Entry.amount).sum := by
  induction es with
  | nil => intro s; simp
  | cons e es ih =>
      intro s
      rw [List.foldl_cons, ih]
      rw [(summaryAddEntry_status_fields today s e).2.2.2.2]
      by_cases hp : strLower e.status = "paid"
      · simp [List.filter_cons, hp]
      · simp [List.filter_cons, hp, add_assoc]

/-- Folding a list of sources adds the amounts of exactly the non-paid
entries it reads to the running amount due. -/
theorem foldl_sources_total_amount (today : Int) (srcs : List Source) :
    ∀ s : Summary,
      (srcs.foldl (summaryAddSource today) s).total_amount_due
        = s.total_amount_due
            + (((collectEntries srcs).filter fun e => !(strLower e.status == "paid")).map
                Entry.amount).sum := by
  induction srcs with
  | nil => intro s; simp [collectEntries]
  | cons src srcs ih =>
      intro s
      rw [List.foldl_cons, ih]
      rcases hre : read_entries src with _ | es
      · simp [summaryAddSource, hre, collectEntries]
      · simp only [summaryAddSource, hre]
        rw [foldl_entries_total_amount]
        have : collectEntries (src :: srcs) = es ++ collectEntries srcs := by
          simp [collectEntries, hre]
        rw [this, List.filter_append, List.map_append, List.sum_append, add_assoc]

/-- In any of the three trace shapes the write paths can produce, every
decomposition exposing a send event has the ledger-update event before it. -/
theorem update_before_send (r : Bool) (l : List WEvent)
    (hl : l = [] ∨ l = [WEvent.updateLedger r]
        ∨ l = [WEvent.updateLedger r, WEvent.sendEmail]) :
    ∀ pre post, l = pre ++ WEvent.sendEmail :: post → WEvent.updateLedger r ∈ pre := by
  intro pre post heq
  rcases hl with rfl | rfl | rfl
  · rcases pre with _ | ⟨x, pre⟩ <;> simp_all
  · rcases pre with _ | ⟨x, pre⟩ <;> simp_all
  · rcases pre with _ | ⟨x, _ | ⟨y, pre⟩⟩ <;> simp_all

/-- C1: every item of the due-list carries the priority the tie-break table
assigns to its days_overdue, evaluated top-down: 7 is Low, 8 is Medium, 30 is
Medium, 31 is High; in general more than 30 is High, 8 to 30 is Medium, and
0 to 7 is Low. -/
theorem claim_C1_priority_boundaries (today : Int) (sources : List Source) (i : DueItem)
    (h : i ∈ get_due_payments today sources) :
    (i.days_overdue = 7 → i.priority = "Low") ∧
      (i.days_overdue = 8 → i.priority = "Medium") ∧
      (i.days_overdue = 30 → i.priority = "Medium") ∧
      (i.days_overdue = 31 → i.priority = "High") ∧
      (30 < i.days_overdue → i.priority = "High") ∧
      (8 ≤ i.days_overdue ∧ i.days_overdue ≤ 30 → i.priority = "Medium") ∧
      (0 ≤ i.days_overdue ∧ i.days_overdue ≤ 7 → i.priority = "Low") := by
  obtain ⟨-, d, -, -, hdo, hpr⟩ := mem_due_spec h
  have hpi : i.priority = priorityOf i.days_overdue := by rw [hpr, hdo]
  rw [hpi]
  unfold priorityOf
  refine ⟨?_, ?_, ?_, ?_, ?_, ?_, ?_⟩
  · intro hv; rw [hv]; decide
  · intro hv; rw [hv]; decide
  · intro hv; rw [hv]; decide
  · intro hv; rw [hv]; decide
  · intro hv; rw [if_pos hv]
  · intro hv; rw [if_neg (by omega), if_pos (by omega)]
  · intro hv; rw [if_neg (by omega), if_neg (by omega)]

/-- Witness for C1: at today = 0 the Alice entry, 31 days overdue, is in the
due-list with priority High. -/
theorem claim_C1_witness :
    itemAlice ∈ get_due_payments 0 [srcAlice] ∧ itemAlice.priority = "High" :=
  ⟨by decide,
    (claim_C1_priority_boundaries 0 [srcAlice] itemAlice (by decide)).2.2.2.1 (by decide)⟩

/-- C2: a record in the due-list (due_date on or before today) never also
appears in the upcoming-list (strictly after today), for any sources, today,
and horizon; in particular a record due exactly today is only in the
due-list. -/
theorem claim_C2_classification_exclusivity (today daysAhead : Int)
    (sources : List Source) (e : Entry)
    (h : ∃ i ∈ get_due_payments today sources, i.entry = e) :
    ∀ j ∈ get_upcoming_payments today daysAhead sources, j.entry ≠ e := by
  obtain ⟨i, hi, hie⟩ := h
  intro j hj hje
  obtain ⟨-, d, hd, hdle, -⟩ := mem_due_spec hi
  obtain ⟨-, d2, hd2, hlt, -⟩ := mem_upcoming_spec hj
  rw [hie] at hd
  rw [hje] at hd2
  rw [hd] at hd2
  cases hd2
  omega

/-- Witness for C2: the Bob entry is due exactly on day 0, is in the due-list,
and is therefore absent from the upcoming-list. -/
theorem claim_C2_witness :
    (get_upcoming_payments 0 7 [srcBob]).all (fun j => !(j.entry == entryBob)) = true := by
  have h := claim_C2_classification_exclusivity 0 7 [srcBob] entryBob
    ⟨⟨entryBob, 0, "Low"⟩, by decide, rfl⟩
  rw [List.all_eq_true]
  intro j hj
  simpa using h j hj

/-- C4: a Paid record (case-insensitively) is in neither the due-list nor the
upcoming-list, and adds nothing to the summary's total_amount_due, regardless
of its due date. -/
theorem claim_C4_settlement_exclusion (today daysAhead : Int) (sources : List Source)
    (e : Entry) (s : Summary) (h : strLower e.status = "paid") :
    (∀ i ∈ get_due_payments today sources, i.entry ≠ e) ∧
      (∀ j ∈ get_upcoming_payments today daysAhead sources, j.entry ≠ e) ∧
      (summaryAddEntry today s e).total_amount_due = s.total_amount_due := by
  refine ⟨?_, ?_, ?_⟩
  · intro i hi hie
    have hne := (mem_due_spec hi).1
    rw [hie, h] at hne
    exact hne rfl
  · intro j hj hje
    have hne := (mem_upcoming_spec hj).1
    rw [hje, h] at hne
    exact hne rfl
  · rw [(summaryAddEntry_status_fields today s e).2.2.2.2, h]
    simp

/-- Witness for C4: the Paid entry Dana is excluded from due-list,
upcoming-list, and the amount sum at today = 0. -/
theorem claim_C4_witness :
    (∀ i ∈ get_due_payments 0 [srcBob], i.entry ≠ entryPaidDana) ∧
      (∀ j ∈ get_upcoming_payments 0 7 [srcBob], j.entry ≠ entryPaidDana) ∧
      (summaryAddEntry 0 emptySummary entryPaidDana).total_amount_due
        = emptySummary.total_amount_due :=
  claim_C4_settlement_exclusion 0 7 [srcBob] entryPaidDana emptySummary (by decide)

/-- C7: the due-list is pairwise descending in days_overdue, and the sort is
stable: restricted to any one days_overdue value it coincides with the
pre-sort pool, which lists included records in input order. -/
theorem claim_C7_due_sort_stable (today : Int) (sources : List Source) :
    (get_due_payments today sources).Pairwise
        (fun a b => b.days_overdue ≤ a.days_overdue) ∧
      ∀ k : Int,
        (get_due_payments today sources).filter (fun i => i.days_overdue == k)
          = (duePool today sources).filter (fun i => i.days_overdue == k) :=
  ⟨pairwise_sortDue (duePool today sources), fun k => filter_sortDue k (duePool today sources)⟩

/-- Counterexample to C3 as stated: a row whose Status holds the unrecognized
value "Pending" is returned by get_payment_entries with that value kept
verbatim, not coerced to "Unpaid". -/
theorem claim_C3_counterexample :
    (get_payment_entries [⟨"Eve", 10, RawDue.dateLike 3, none, some "Pending"⟩] none).map
        Entry.status ≠ ["Unpaid"] ∧
      (get_payment_entries [⟨"Eve", 10, RawDue.dateLike 3, none, some "Pending"⟩] none).map
        Entry.status = ["Pending"] := by
  constructor
  · decide
  · rfl

/-- C3 amended: a missing or empty Status is coerced to Unpaid in the
returned record; an unrecognized non-empty value is kept verbatim in the
record, but classification depends on the status only through its lower-cased
form (and hence treats any value other than paid / partial, in any case, as
Unpaid). -/
theorem claim_C3_status_normalization :
    normalizeStatus none = "Unpaid" ∧
      normalizeStatus (some "") = "Unpaid" ∧
      (∀ s, s ≠ "" → normalizeStatus (some s) = s) ∧
      (∀ (today : Int) (e : Entry) (s1 s2 : String), strLower s1 = strLower s2 →
        (dueOfEntry today { e with status := s1 }).isSome
            = (dueOfEntry today { e with status := s2 }).isSome ∧
          (∀ f, (upcomingOfEntry today f { e with status := s1 }).isSome
            = (upcomingOfEntry today f { e with status := s2 }).isSome) ∧
          (∀ s, summaryAddEntry today s { e with status := s1 }
            = summaryAddEntry today s { e with status := s2 })) := by
  refine ⟨rfl, rfl, ?_, ?_⟩
  · intro s hs
    simp [normalizeStatus, hs]
  · intro today e s1 s2 h
    refine ⟨?_, ?_, ?_⟩
    · rcases hd : e.dueDate with _ | _ | d <;>
        simp [dueOfEntry, hd, h] <;> split_ifs <;> simp
    · intro f
      rcases hd : e.dueDate with _ | _ | d <;>
        simp [upcomingOfEntry, hd, h] <;> split_ifs <;> simp
    · intro s
      rcases hd : e.dueDate with _ | _ | d <;>
        simp [summaryAddEntry, hd, h]

/-- Witness for the amended C3: the unrecognized value "Pending" passes
through normalization unchanged. -/
theorem claim_C3_witness : normalizeStatus (some "Pending") = "Pending" :=
  claim_C3_status_normalization.2.2.1 "Pending" (by decide)

/-- Counterexample to C5 as stated: when the ledger update fails (update_payment
returns False) and a notifier plus a recipient email are present, both write
paths still emit the notification. -/
theorem claim_C5_counterexample :
    mark_as_paid true true true false
        = [WEvent.updateLedger false, WEvent.sendEmail] ∧
      reschedule_payment true true false
        = [WEvent.updateLedger false, WEvent.sendEmail] := by
  constructor <;> rfl

/-- C5 amended: in both write paths the notification is emitted only after the
ledger update has returned, never before; but the update's boolean result is
never inspected — the notification is emitted exactly when a notifier and a
recipient email are present (and, for mark-as-paid, the amount parsed),
regardless of whether the update succeeded. -/
theorem claim_C5_send_after_update (aV nP eP r : Bool) :
    (∀ pre post, mark_as_paid aV nP eP r = pre ++ WEvent.sendEmail :: post →
        WEvent.updateLedger r ∈ pre) ∧
      (WEvent.sendEmail ∈ mark_as_paid aV nP eP r ↔ aV = true ∧ nP = true ∧ eP = true) ∧
      (∀ pre post, reschedule_payment nP eP r = pre ++ WEvent.sendEmail :: post →
          WEvent.updateLedger r ∈ pre) ∧
      (WEvent.sendEmail ∈ reschedule_payment nP eP r ↔ nP = true ∧ eP = true) := by
  refine ⟨?_, ?_, ?_, ?_⟩
  · refine update_before_send r _ ?_
    cases aV <;> cases nP <;> cases eP <;> simp [mark_as_paid]
  · cases aV <;> cases nP <;> cases eP <;> simp [mark_as_paid]
  · refine update_before_send r _ ?_
    cases nP <;> cases eP <;> simp [reschedule_payment]
  · cases nP <;> cases eP <;> simp [reschedule_payment]

/-- Witness for the amended C5: in the failed-update trace of mark_as_paid the
send event is preceded by the (failed) update event. -/
theorem claim_C5_witness :
    WEvent.updateLedger false ∈ [WEvent.updateLedger false] :=
  (claim_C5_send_after_update true true true false).1
    [WEvent.updateLedger false] [] rfl

/-- C6: the summary's total_amount_due is the sum of the amounts of exactly
the non-Paid entries read (Partial, Unpaid, and any other status alike), and
an entry with a missing or unparseable due date still moves the status
counters and the amount while leaving all three date-bucket counters
untouched. -/
theorem claim_C6_amount_and_buckets (today : Int) (sources : List Source) :
    (get_payment_summary today sources).total_amount_due
        = (((collectEntries sources).filter fun e => !(strLower e.status == "paid")).map
            Entry.amount).sum ∧
      ∀ (e : Entry) (s : Summary),
        e.dueDate = DueField.missing ∨ e.dueDate = DueField.bad →
          (summaryAddEntry today s e).overdue_payments = s.overdue_payments ∧
            (summaryAddEntry today s e).due_today = s.due_today ∧
            (summaryAddEntry today s e).upcoming_payments = s.upcoming_payments ∧
            (summaryAddEntry today s e).total_payments = s.total_payments + 1 ∧
            (summaryAddEntry today s e).paid_payments
              = s.paid_payments + (if strLower e.status = "paid" then 1 else 0) ∧
            (summaryAddEntry today s e).partial_payments
              = s.partial_payments + (if strLower e.status = "partial" then 1 else 0) ∧
            (summaryAddEntry today s e).unpaid_payments
              = s.unpaid_payments
                  + (if strLower e.status ≠ "paid" ∧ strLower e.status ≠ "partial"
                     then 1 else 0) ∧
            (summaryAddEntry today s e).total_amount_due
              = s.total_amount_due + (if strLower e.status = "paid" then 0 else e.amount) := by
  constructor
  · rw [get_payment_summary, foldl_sources_total_amount]
    simp [emptySummary]
  · intro e s h
    obtain ⟨h1, h2, h3⟩ := summaryAddEntry_nodate_buckets today s e h
    obtain ⟨g1, g2, g3, g4, g5⟩ := summaryAddEntry_status_fields today s e
    exact ⟨h1, h2, h3, g1, g2, g3, g4, g5⟩

/-- Witness for C6: an Unpaid entry with a missing due date leaves the overdue
counter of the empty summary untouched. -/
theorem claim_C6_witness :
    (summaryAddEntry 0 emptySummary entryNoDate).overdue_payments
      = emptySummary.overdue_payments :=
  ((claim_C6_amount_and_buckets 0 []).2 entryNoDate emptySummary (Or.inl rfl)).1

/-- C8: the summary over the two-source list [A, B] is the counter-wise sum of
the summaries of [A] and of [B], for every counter of the summary. -/
theorem claim_C8_summary_additivity (today : Int) (A B : Source) :
    get_payment_summary today [A, B]
      = addSummary (get_payment_summary today [A]) (get_payment_summary today [B]) := by
  have h1 : get_payment_summary today [A, B]
      = summaryAddSource today (summaryAddSource today emptySummary A) B := rfl
  have h2 : get_payment_summary today [A] = summaryAddSource today emptySummary A := rfl
  have h3 : get_payment_summary today [B] = summaryAddSource today emptySummary B := rfl
  rw [h1, h2, h3]
  calc summaryAddSource today (summaryAddSource today emptySummary A) B
      = summaryAddSource today
          (addSummary (summaryAddSource today emptySummary A) emptySummary) B := by
        rw [addSummary_empty_right]
    _ = addSummary (summaryAddSource today emptySummary A)
          (summaryAddSource today emptySummary B) :=
        summaryAddSource_addSummary today (summaryAddSource today emptySummary A)
          emptySummary B

/-- C9: a failing source (nonexistent file, unreadable file, or missing
required columns) contributes no rows and does not disturb the remaining
sources: the due-list, the upcoming-list, and the summary over the source
list with the failing source are the same as over the list without it. -/
theorem claim_C9_failed_source_isolation (today daysAhead : Int)
    (A B : List Source) (s : Source) (h : s.fails = true) :
    get_due_payments today (A ++ s :: B) = get_due_payments today (A ++ B) ∧
      get_upcoming_payments today daysAhead (A ++ s :: B)
        = get_upcoming_payments today daysAhead (A ++ B) ∧
      get_payment_summary today (A ++ s :: B) = get_payment_summary today (A ++ B) := by
  have hre : read_entries s = none := by
    cases s with
    | missing => rfl
    | readError => rfl
    | ok rows city => simp [Source.fails] at h
  refine ⟨?_, ?_, ?_⟩
  · rw [get_due_payments, get_due_payments]
    congr 1
    simp [duePool, hre]
  · rw [get_upcoming_payments, get_upcoming_payments]
    congr 1
    simp [upcomingPool, hre]
  · rw [get_payment_summary, get_payment_summary, List.foldl_append, List.foldl_append,
      List.foldl_cons]
    congr 1
    simp [summaryAddSource, hre]

/-- Witness for C9: a nonexistent file between no other sources yields the
same (empty) due-list as no sources at all. -/
theorem claim_C9_witness :
    get_due_payments 0 ([] ++ Source.missing :: []) = get_due_payments 0 ([] ++ []) :=
  (claim_C9_failed_source_isolation 0 7 [] [] Source.missing rfl).1

/-- C10: send_payment_reminder always returns False: it delegates to
send_email with recipient None, and send_email returns False whenever the
notifier is unconfigured, the recipient is absent, or the recipient lacks an
'@' — whatever the SMTP exchange would have done. -/
theorem claim_C10_reminder_never_sent :
    (∀ (n : EmailNotifier) (smtpOk : Bool) (customerName : String) (amount : ℚ)
        (dueDate : Int) (city : Option String),
        send_payment_reminder n smtpOk customerName amount dueDate city = false) ∧
      (∀ (n : EmailNotifier) (smtpOk : Bool) (subject bodyText : String)
          (bodyHtml : Option String),
          send_email n smtpOk none subject bodyText bodyHtml = false) ∧
      (∀ (n : EmailNotifier) (smtpOk : Bool) (t : String) (subject bodyText : String)
          (bodyHtml : Option String),
          n.isConfigured = false ∨ t.contains '@' = false →
            send_email n smtpOk (some t) subject bodyText bodyHtml = false) := by
  refine ⟨?_, ?_, ?_⟩
  · intro n smtpOk customerName amount dueDate city
    simp [send_payment_reminder, send_email]
  · intro n smtpOk subject bodyText bodyHtml
    simp [send_email]
  · intro n smtpOk t subject bodyText bodyHtml h
    rcases h with h | h
    · simp [send_email, h]
    · by_cases hc : n.isConfigured = false
      · simp [send_email, hc]
      · have hc2 : n.isConfigured = true := by
          cases hcv : n.isConfigured
          · exact absurd hcv hc
          · rfl
        simp [send_email, hc2, h]

/-- Witness for C10: an unconfigured notifier fails to send even to a valid
recipient address. -/
theorem claim_C10_witness :
    send_email ⟨"smtp.gmail.com", "", "", "Our Company"⟩ true (some "user@example.com")
        "subject" "body" none = false :=
  claim_C10_reminder_never_sent.2.2 ⟨"smtp.gmail.com", "", "", "Our Company"⟩ true
    "user@example.com" "subject" "body" none (Or.inl rfl)

end PaymentApp
